import Mathlib

/-!
Verification development for the invoicing application's two in-scope
components: the aggregation engine (`ReportsDashboard` /
`CustomerStatsDashboard`) and the session bootstrap controller
(`initializeApp` / `getOrCreateUserProfile` / the auth-state-change
handler in `App`).

The JavaScript/TypeScript source is shallowly embedded:

* a canonical `"YYYY-MM-DD"` issue-date string is modelled by a
  `CivilDate` record of its year/month/day components (string equality
  of canonical date strings coincides with component equality);
* `new Date("YYYY-MM-DD")` parses the date-only form as **UTC**
  midnight (ECMAScript `Date.parse`); this is modelled by `jsUTCms`,
  the proleptic-Gregorian day number of the date times 86400000;
* `new Date("YYYY-MM-DDT00:00:00")` (no zone suffix) parses in the
  **local** zone, and reading the instant back with the local getters
  `getFullYear`/`getMonth`/`getDate` returns exactly the written
  components, so that round-trip is modelled as the identity on the
  components;
* the local getters applied to an arbitrary instant are modelled by
  `civilFromDays` (calendar from day number) applied to the instant
  shifted by the viewer's UTC offset (`tzMs`, milliseconds east of
  UTC, e.g. -18000000 for UTC-5);
* JavaScript `Map` is an insertion-ordered association list with
  unique keys, JavaScript `Set` an insertion-ordered duplicate-free
  list; `Array.prototype.sort` (stable, ES2019) is `List.mergeSort`;
* JavaScript numbers appearing only as invoice money totals are
  idealised as `ℚ` (no claim in scope depends on float rounding);
* remote calls (supabase) are modelled by an explicit environment
  giving each call's outcome, and the calls actually performed are
  recorded in a log.
-/

/-- Calendar date, the components of a canonical `"YYYY-MM-DD"` string
(year unpadded only in `getFullYear` output, see `ValidDate`). -/
structure CivilDate where
  year : Int
  month : Nat
  day : Nat
deriving DecidableEq

/-- Gregorian leap-year test, as a boolean like the arithmetic a JS
`Date` performs internally. -/
def isLeap (y : Int) : Bool :=
  y % 4 == 0 && (y % 100 != 0 || y % 400 == 0)

/-- Length of month `m` (1-based) in a (non-)leap year. -/
def monthLen (leap : Bool) (m : Nat) : Nat :=
  match m with
  | 1 => 31
  | 2 => if leap then 29 else 28
  | 3 => 31
  | 4 => 30
  | 5 => 31
  | 6 => 30
  | 7 => 31
  | 8 => 31
  | 9 => 30
  | 10 => 31
  | 11 => 30
  | 12 => 31
  | _ => 0

/-- Total days in the first `m` months of a (non-)leap year. -/
def monthsLen (leap : Bool) : Nat → Nat
  | 0 => 0
  | m + 1 => monthsLen leap m + monthLen leap (m + 1)

/-- Ordinal day of the year of a civil date (1-based). -/
def dayOfYear (c : CivilDate) : Nat :=
  monthsLen (isLeap c.year) (c.month - 1) + c.day

/-- Number of days in year `y`. -/
def daysInYear (y : Int) : Int :=
  if isLeap y then 366 else 365

/-- Days in all years strictly before year `y` of the proleptic
Gregorian calendar, counted from year 1 (floor division; `Int./` is
Euclidean division, which is floor division for positive divisors). -/
def daysBeforeYear (y : Int) : Int :=
  365 * (y - 1) + (y - 1) / 4 - (y - 1) / 100 + (y - 1) / 400

/-- Proleptic Gregorian day number of a civil date (1 for 0001-01-01). -/
def rataDie (c : CivilDate) : Int :=
  daysBeforeYear c.year + dayOfYear c

/-- Day number of the Unix epoch 1970-01-01. -/
def epochRataDie : Int := rataDie ⟨1970, 1, 1⟩

/-- Milliseconds since the Unix epoch of UTC midnight of a civil date:
the value of `new Date("YYYY-MM-DD").getTime()`, since ECMAScript
parses the date-only ISO form as UTC. -/
def jsUTCms (c : CivilDate) : Int :=
  (rataDie c - epochRataDie) * 86400000

/-- Calendar date from a day number counted from the Unix epoch
(companion of `rataDie`; the civil-from-days algorithm used by JS
engines, all divisions floor divisions on the shifted nonnegative
range). -/
def civilFromDays (z0 : Int) : CivilDate :=
  let z := z0 + 719468
  let era := z / 146097
  let doe := z - era * 146097
  let yoe := (doe - doe / 1460 + doe / 36524 - doe / 146096) / 365
  let y := yoe + era * 400
  let doy := doe - (365 * yoe + yoe / 4 - yoe / 100)
  let mp := (5 * doy + 2) / 153
  let d := doy - (153 * mp + 2) / 5 + 1
  let m := mp + (if mp < 10 then 3 else (-9 : Int))
  { year := y + (if m ≤ 2 then 1 else 0), month := m.toNat, day := d.toNat }

/-- Calendar day, in the viewer's local zone at UTC offset `tzMs`
milliseconds, of the instant `t` ms since the epoch: what the local
getters `getFullYear`/`getMonth`/`getDate` of a JS `Date` report. -/
def jsLocalCivil (t tzMs : Int) : CivilDate :=
  civilFromDays ((t + tzMs) / 86400000)

/-- Result of `getFullYear()` at instant `t` for a viewer at offset `tzMs`. -/
def jsGetFullYear (t tzMs : Int) : Int :=
  (jsLocalCivil t tzMs).year

/-- Result of `getMonth()` (0-based) at instant `t` for a viewer at offset `tzMs`. -/
def jsGetMonth (t tzMs : Int) : Nat :=
  (jsLocalCivil t tzMs).month - 1

/-- Calendar day of the `toISOString()` output of instant `t`: the UTC
calendar day, independent of the viewer's zone. -/
def jsISODateOfMs (t : Int) : CivilDate :=
  civilFromDays (t / 86400000)

/-- Well-formedness of an issue date as the application assumes it: a
canonical `"YYYY-MM-DD"` string whose components are a real calendar
date with a four-digit year (the reports' month key interpolates
`getFullYear()` unpadded, so only four-digit years re-parse as ISO). -/
def ValidDate (c : CivilDate) : Prop :=
  1000 ≤ c.year ∧ c.year ≤ 9999 ∧ 1 ≤ c.month ∧ c.month ≤ 12 ∧
    1 ≤ c.day ∧ c.day ≤ monthLen (isLeap c.year) c.month

instance : DecidablePred ValidDate := fun c => by
  unfold ValidDate; infer_instance

/-- Chronological (lexicographic) strict order on civil dates. -/
def civilLT (a b : CivilDate) : Prop :=
  a.year < b.year ∨ (a.year = b.year ∧
    (a.month < b.month ∨ (a.month = b.month ∧ a.day < b.day)))

instance (a b : CivilDate) : Decidable (civilLT a b) := by
  unfold civilLT; infer_instance

theorem isLeap_iff (y : Int) :
    isLeap y = true ↔ ((4 : Int) ∣ y ∧ (¬ (100 : Int) ∣ y ∨ (400 : Int) ∣ y)) := by
  simp only [isLeap, Bool.and_eq_true, Bool.or_eq_true, beq_iff_eq, bne_iff_ne,
    Int.dvd_iff_emod_eq_zero]

theorem daysBeforeYear_succ (y : Int) :
    daysBeforeYear (y + 1) = daysBeforeYear y + daysInYear y := by
  have h := isLeap_iff y
  unfold daysBeforeYear daysInYear
  split
  case isTrue hl =>
    rw [h] at hl
    omega
  case isFalse hl =>
    rw [h] at hl
    omega

theorem daysBeforeYear_mono {y z : Int} (h : y ≤ z) :
    daysBeforeYear y ≤ daysBeforeYear z := by
  have key : ∀ k : Nat, daysBeforeYear y ≤ daysBeforeYear (y + k) := by
    intro k
    induction k with
    | zero => simp
    | succ n ih =>
      have hs := daysBeforeYear_succ (y + n)
      have hpos : 365 ≤ daysInYear (y + n) := by
        unfold daysInYear; split <;> omega
      have : (y + (n + 1 : Nat)) = (y + n) + 1 := by push_cast; ring
      rw [this]
      omega
  have hz : z = y + ((z - y).toNat : Int) := by omega
  rw [hz]
  exact_mod_cast key (z - y).toNat

theorem monthsLen_succ (leap : Bool) (m : Nat) :
    monthsLen leap (m + 1) = monthsLen leap m + monthLen leap (m + 1) := rfl

theorem monthsLen_le_monthsLen (leap : Bool) :
    ∀ i, i ≤ 12 → ∀ j, j ≤ 12 → i ≤ j → monthsLen leap i ≤ monthsLen leap j := by
  cases leap <;> decide

theorem monthsLen_add_monthLen_le (leap : Bool) :
    ∀ m, m ≤ 12 → monthsLen leap (m - 1) + monthLen leap m ≤ monthsLen leap 12 := by
  cases leap <;> decide

theorem monthsLen_twelve (leap : Bool) :
    monthsLen leap 12 = if leap then 366 else 365 := by
  cases leap <;> decide

theorem dayOfYear_pos {c : CivilDate} (hc : ValidDate c) : 1 ≤ dayOfYear c := by
  obtain ⟨-, -, -, -, hd, -⟩ := hc
  unfold dayOfYear
  omega

theorem dayOfYear_le_daysInYear {c : CivilDate} (hc : ValidDate c) :
    (dayOfYear c : Int) ≤ daysInYear c.year := by
  obtain ⟨-, -, hm1, hm2, -, hd2⟩ := hc
  have h1 := monthsLen_add_monthLen_le (isLeap c.year) c.month hm2
  unfold dayOfYear daysInYear
  cases hB : isLeap c.year
  · rw [hB] at h1 hd2
    have h2 : monthsLen false 12 = 365 := rfl
    simp only [hB, Bool.false_eq_true, if_false]
    omega
  · rw [hB] at h1 hd2
    have h2 : monthsLen true 12 = 366 := rfl
    simp only [hB, if_true]
    omega

theorem rataDie_lt_of_civilLT {a b : CivilDate}
    (ha : ValidDate a) (hb : ValidDate b) (h : civilLT a b) :
    rataDie a < rataDie b := by
  rcases h with hy | ⟨hy, hm | ⟨hm, hd⟩⟩
  · have h1 : (dayOfYear a : Int) ≤ daysInYear a.year := dayOfYear_le_daysInYear ha
    have h2 : 1 ≤ dayOfYear b := dayOfYear_pos hb
    have h3 := daysBeforeYear_succ a.year
    have h4 : daysBeforeYear (a.year + 1) ≤ daysBeforeYear b.year :=
      daysBeforeYear_mono (by omega)
    unfold rataDie
    omega
  · obtain ⟨-, -, hma1, hma2, -, hda2⟩ := ha
    obtain ⟨-, -, hmb1, hmb2, hdb1, -⟩ := hb
    have h1 := monthsLen_add_monthLen_le (isLeap a.year) a.month hma2
    have h2 : monthsLen (isLeap a.year) a.month ≤ monthsLen (isLeap a.year) (b.month - 1) :=
      monthsLen_le_monthsLen (isLeap a.year) a.month (by omega) (b.month - 1) (by omega) (by omega)
    unfold rataDie dayOfYear
    rw [hy] at *
    have hml : monthsLen (isLeap b.year) (a.month - 1 + 1) =
        monthsLen (isLeap b.year) (a.month - 1) + monthLen (isLeap b.year) (a.month - 1 + 1) :=
      monthsLen_succ _ _
    have hmm : a.month - 1 + 1 = a.month := by omega
    rw [hmm] at hml
    omega
  · unfold rataDie dayOfYear
    rw [hy, hm]
    omega

theorem civilLT_or_civilLT {a b : CivilDate} (h : a ≠ b) :
    civilLT a b ∨ civilLT b a := by
  unfold civilLT
  rcases lt_trichotomy a.year b.year with hy | hy | hy
  · exact Or.inl (Or.inl hy)
  · rcases lt_trichotomy a.month b.month with hm | hm | hm
    · exact Or.inl (Or.inr ⟨hy, Or.inl hm⟩)
    · rcases lt_trichotomy a.day b.day with hd | hd | hd
      · exact Or.inl (Or.inr ⟨hy, Or.inr ⟨hm, hd⟩⟩)
      · exact absurd (by cases a; cases b; simp_all) h
      · exact Or.inr (Or.inr ⟨hy.symm, Or.inr ⟨hm.symm, hd⟩⟩)
    · exact Or.inr (Or.inr ⟨hy.symm, Or.inl hm⟩)
  · exact Or.inr (Or.inl hy)

theorem jsUTCms_lt_of_civilLT {a b : CivilDate}
    (ha : ValidDate a) (hb : ValidDate b) (h : civilLT a b) :
    jsUTCms a < jsUTCms b := by
  have := rataDie_lt_of_civilLT ha hb h
  unfold jsUTCms
  omega

theorem civilLT_of_jsUTCms_le {a b : CivilDate}
    (ha : ValidDate a) (hb : ValidDate b) (hne : a ≠ b)
    (h : jsUTCms b ≤ jsUTCms a) : civilLT b a := by
  rcases civilLT_or_civilLT hne with hlt | hlt
  · exact absurd h (not_le.mpr (jsUTCms_lt_of_civilLT ha hb hlt))
  · exact hlt

/-! ## Aggregation engine (`ReportsDashboard` in `DatabaseSetup.tsx`) -/

/-- One line item of an invoice: `{product, quantity, price}` (the
product reference is irrelevant to aggregation and omitted). -/
structure LineItem where
  quantity : Nat
  price : ℚ

/-- Customer block of an invoice; only the free-text `name` is used as
the de-duplication key. -/
structure BillTo where
  name : String
deriving DecidableEq

/-- Invoice as the aggregation engine consumes it. `issueDate` models
the canonical `"YYYY-MM-DD"` string through its components. -/
structure Invoice where
  issueDate : CivilDate
  billTo : BillTo
  lineItems : List LineItem

/-- Invoice total:
`invoice.lineItems.reduce((acc, item) => acc + item.quantity * item.price, 0)`. -/
def invoiceTotal (inv : Invoice) : ℚ :=
  inv.lineItems.foldl (fun acc item => acc + item.quantity * item.price) 0

/-- Element insertion of a JS `Set` kept as an insertion-ordered
duplicate-free list. -/
def setAdd (s : List String) (x : String) : List String :=
  if x ∈ s then s else s ++ [x]

/-- Accumulator the `ReportsDashboard` keeps per period key. -/
structure ReportItem where
  customers : List String
  invoiceCount : Nat
  totalBilled : ℚ

/-- Fresh accumulator: `{ customers: new Set(), invoiceCount: 0, totalBilled: 0 }`. -/
def emptyItem : ReportItem := ⟨[], 0, 0⟩

/-- Effect of one invoice on its period's accumulator:
`report.customers.add(name); report.invoiceCount++; report.totalBilled += invoiceTotal`. -/
def addInvoice (item : ReportItem) (inv : Invoice) : ReportItem :=
  { customers := setAdd item.customers inv.billTo.name
    invoiceCount := item.invoiceCount + 1
    totalBilled := item.totalBilled + invoiceTotal inv }

/-- JS `Map` upsert performed by the dashboard for one invoice: if the
key is absent, bind it to a fresh accumulator first (`if (!m.has(k))
m.set(k, empty)`), then update the key's accumulator. Keys stay unique
and keep insertion order. -/
def mapUpsert {K : Type} [DecidableEq K] :
    List (K × ReportItem) → K → Invoice → List (K × ReportItem)
  | [], k, inv => [(k, addInvoice emptyItem inv)]
  | (k', item) :: rest, k, inv =>
    if k' = k then (k', addInvoice item inv) :: rest
    else (k', item) :: mapUpsert rest k inv

/-- Month key of an invoice:
`` `${issueDate.getFullYear()}-${String(issueDate.getMonth()+1).padStart(2,'0')}` ``
where `issueDate = new Date(invoice.issueDate + 'T00:00:00')` is parsed
in the local zone, so the local getters return exactly the written
year/month components: the key is the issue date's own (year, month). -/
def monthKeyOf (inv : Invoice) : Int × Nat :=
  (inv.issueDate.year, inv.issueDate.month)

/-- Body of one iteration of the dashboard's `invoices.forEach`: the
invoice is charged to its day key (`dayKey = invoice.issueDate`) in the
daily map and to its month key in the monthly map. -/
def reportStep
    (maps : List (CivilDate × ReportItem) × List ((Int × Nat) × ReportItem))
    (inv : Invoice) :
    List (CivilDate × ReportItem) × List ((Int × Nat) × ReportItem) :=
  (mapUpsert maps.1 inv.issueDate inv, mapUpsert maps.2 (monthKeyOf inv) inv)

/-- Both period maps after the dashboard's single `invoices.forEach` pass. -/
def reportMaps (invoices : List Invoice) :
    List (CivilDate × ReportItem) × List ((Int × Nat) × ReportItem) :=
  invoices.foldl reportStep ([], [])

/-- Row produced from a map entry:
`{ date, ...data, uniqueCustomers: data.customers.size }`. -/
structure ReportRow (K : Type) where
  date : K
  customers : List String
  invoiceCount : Nat
  totalBilled : ℚ
  uniqueCustomers : Nat

/-- Conversion of a map entry to a report row. -/
def toRow {K : Type} (p : K × ReportItem) : ReportRow K :=
  ⟨p.1, p.2.customers, p.2.invoiceCount, p.2.totalBilled, p.2.customers.length⟩

/-- Sort key of the monthly comparator: `new Date(a.date + '-01').getTime()`
re-parses the `"YYYY-MM"` key with day 01 as a UTC instant. -/
def jsMonthMs (k : Int × Nat) : Int :=
  jsUTCms ⟨k.1, k.2, 1⟩

/-- Aggregation of `ReportsDashboard`: build both maps in one pass, turn
them into rows, and sort daily rows by
`(a, b) => new Date(b.date).getTime() - new Date(a.date).getTime()` and
monthly rows by the same comparator on the re-parsed month key
(descending; JS sort is stable, modelled by `mergeSort`). -/
def computeDailyAndMonthlyReports (invoices : List Invoice) :
    List (ReportRow CivilDate) × List (ReportRow (Int × Nat)) :=
  let maps := reportMaps invoices
  ((maps.1.map toRow).mergeSort (fun a b => decide (jsUTCms b.date ≤ jsUTCms a.date)),
   (maps.2.map toRow).mergeSort (fun a b => decide (jsMonthMs b.date ≤ jsMonthMs a.date)))

/-- Chronological strict order on `"YYYY-MM"` month keys. -/
def monthLT (a b : Int × Nat) : Prop :=
  a.1 < b.1 ∨ (a.1 = b.1 ∧ a.2 < b.2)

instance (a b : Int × Nat) : Decidable (monthLT a b) := by
  unfold monthLT; infer_instance

/-- Sum of the per-period invoice counts of a period map. -/
def sumCounts {K : Type} (m : List (K × ReportItem)) : Nat :=
  (m.map fun p => p.2.invoiceCount).sum

theorem sumCounts_mapUpsert {K : Type} [DecidableEq K]
    (m : List (K × ReportItem)) (k : K) (inv : Invoice) :
    sumCounts (mapUpsert m k inv) = sumCounts m + 1 := by
  induction m with
  | nil => simp [mapUpsert, sumCounts, addInvoice, emptyItem]
  | cons p rest ih =>
    obtain ⟨k', item⟩ := p
    by_cases h : k' = k
    · simp [mapUpsert, h, sumCounts, addInvoice]
      omega
    · simp only [mapUpsert, if_neg h, sumCounts, List.map_cons, List.sum_cons]
      have := ih
      simp only [sumCounts] at this
      omega

theorem mem_mapUpsert {K : Type} [DecidableEq K]
    (m : List (K × ReportItem)) (k : K) (inv : Invoice) :
    ∀ q ∈ mapUpsert m k inv, q.1 ∈ m.map Prod.fst ∨ q.1 = k := by
  induction m with
  | nil =>
    intro q hq
    simp [mapUpsert] at hq
    simp [hq]
  | cons p rest ih =>
    obtain ⟨k', item⟩ := p
    intro q hq
    by_cases h : k' = k
    · simp only [mapUpsert, if_pos h, List.mem_cons] at hq
      rcases hq with hq | hq
      · left; simp [hq]
      · left
        rw [List.map_cons]
        exact List.mem_cons_of_mem _ (List.mem_map_of_mem Prod.fst hq)
    · simp only [mapUpsert, if_neg h, List.mem_cons] at hq
      rcases hq with hq | hq
      · left; simp [hq]
      · rcases ih q hq with hx | hx
        · left; simp at hx ⊢; tauto
        · right; exact hx

theorem pairwise_keys_mapUpsert {K : Type} [DecidableEq K]
    (m : List (K × ReportItem)) (k : K) (inv : Invoice)
    (h : m.Pairwise fun p q => p.1 ≠ q.1) :
    (mapUpsert m k inv).Pairwise fun p q => p.1 ≠ q.1 := by
  induction m with
  | nil => simp [mapUpsert]
  | cons p rest ih =>
    obtain ⟨k', item⟩ := p
    rw [List.pairwise_cons] at h
    obtain ⟨hhead, htail⟩ := h
    by_cases hk : k' = k
    · simp only [mapUpsert, if_pos hk]
      rw [List.pairwise_cons]
      exact ⟨fun q hq => hhead q hq, htail⟩
    · simp only [mapUpsert, if_neg hk]
      rw [List.pairwise_cons]
      refine ⟨fun q hq => ?_, ih htail⟩
      rcases mem_mapUpsert rest k inv q hq with hx | hx
      · obtain ⟨q', hq', hq'eq⟩ := List.mem_map.mp hx
        have := hhead q' hq'
        simpa [hq'eq] using this
      · rw [hx]; exact hk

/-- Generic single-map view of the forEach pass, parametric in the key
function (`Invoice.issueDate` for the daily map, `monthKeyOf` for the
monthly map). -/
def foldMap {K : Type} [DecidableEq K] (f : Invoice → K)
    (invoices : List Invoice) (m : List (K × ReportItem)) :
    List (K × ReportItem) :=
  invoices.foldl (fun acc inv => mapUpsert acc (f inv) inv) m

theorem reportMaps_eq_foldMap (invoices : List Invoice) :
    ∀ ms, invoices.foldl reportStep ms =
      (foldMap (fun inv => inv.issueDate) invoices ms.1,
       foldMap monthKeyOf invoices ms.2) := by
  induction invoices with
  | nil => intro ms; simp [foldMap]
  | cons inv rest ih =>
    intro ms
    rw [List.foldl_cons]
    rw [ih (reportStep ms inv)]
    simp [foldMap, reportStep]

theorem sumCounts_foldMap {K : Type} [DecidableEq K] (f : Invoice → K)
    (invoices : List Invoice) :
    ∀ m, sumCounts (foldMap f invoices m) = sumCounts m + invoices.length := by
  induction invoices with
  | nil => intro m; simp [foldMap]
  | cons inv rest ih =>
    intro m
    have h1 : foldMap f (inv :: rest) m = foldMap f rest (mapUpsert m (f inv) inv) := rfl
    rw [h1, ih, sumCounts_mapUpsert, List.length_cons]
    omega

theorem mem_foldMap {K : Type} [DecidableEq K] (f : Invoice → K)
    (invoices : List Invoice) :
    ∀ m q, q ∈ foldMap f invoices m →
      q.1 ∈ m.map Prod.fst ∨ ∃ inv ∈ invoices, q.1 = f inv := by
  induction invoices with
  | nil =>
    intro m q hq
    left
    exact List.mem_map_of_mem Prod.fst hq
  | cons inv rest ih =>
    intro m q hq
    have h1 : foldMap f (inv :: rest) m = foldMap f rest (mapUpsert m (f inv) inv) := rfl
    rw [h1] at hq
    rcases ih _ q hq with hx | ⟨inv', hinv', heq⟩
    · obtain ⟨q', hq', hq'eq⟩ := List.mem_map.mp hx
      rcases mem_mapUpsert m (f inv) inv q' hq' with hy | hy
      · left; rw [← hq'eq]; exact hy
      · right; exact ⟨inv, List.mem_cons_self _ _, by rw [← hq'eq, hy]⟩
    · right; exact ⟨inv', List.mem_cons_of_mem _ hinv', heq⟩

theorem pairwise_keys_foldMap {K : Type} [DecidableEq K] (f : Invoice → K)
    (invoices : List Invoice) :
    ∀ m, (m.Pairwise fun p q => p.1 ≠ q.1) →
      (foldMap f invoices m).Pairwise fun p q => p.1 ≠ q.1 := by
  induction invoices with
  | nil => intro m h; exact h
  | cons inv rest ih =>
    intro m h
    exact ih _ (pairwise_keys_mapUpsert m (f inv) inv h)

theorem monthLen_pos : ∀ (leap : Bool), ∀ m, m ≤ 12 → 1 ≤ m → 1 ≤ monthLen leap m := by
  decide

theorem validDate_monthKey {d : CivilDate} (hd : ValidDate d) :
    ValidDate ⟨d.year, d.month, 1⟩ := by
  obtain ⟨h1, h2, h3, h4, h5, h6⟩ := hd
  exact ⟨h1, h2, h3, h4, le_refl 1, monthLen_pos _ d.month h4 h3⟩

theorem monthLT_iff (a b : Int × Nat) :
    monthLT a b ↔ civilLT ⟨a.1, a.2, 1⟩ ⟨b.1, b.2, 1⟩ := by
  unfold monthLT civilLT
  constructor
  · rintro (h | ⟨h1, h2⟩)
    · exact Or.inl h
    · exact Or.inr ⟨h1, Or.inl h2⟩
  · rintro (h | ⟨h1, h2 | ⟨h2, h3⟩⟩)
    · exact Or.inl h
    · exact Or.inr ⟨h1, h2⟩
    · exact absurd h3 (lt_irrefl 1)

theorem monthLT_of_jsMonthMs_le {a b : Int × Nat}
    (ha : ValidDate ⟨a.1, a.2, 1⟩) (hb : ValidDate ⟨b.1, b.2, 1⟩)
    (hne : a ≠ b) (h : jsMonthMs b ≤ jsMonthMs a) : monthLT b a := by
  have hne' : (⟨a.1, a.2, 1⟩ : CivilDate) ≠ ⟨b.1, b.2, 1⟩ := by
    intro hE
    apply hne
    simp only [CivilDate.mk.injEq] at hE
    exact Prod.ext_iff.mpr ⟨hE.1, hE.2.1⟩
  rw [monthLT_iff]
  exact civilLT_of_jsUTCms_le ha hb hne' h

/-- Generic descending-sort lemma for a period map sorted with the
dashboard's comparator shape
`(a, b) => keyMs(b.date) - keyMs(a.date)`. -/
theorem mergeSort_rows_pairwise {K : Type} [DecidableEq K]
    (msf : K → Int) (V : K → Prop) (LT : K → K → Prop)
    (hstrict : ∀ {a b : K}, V a → V b → a ≠ b → msf b ≤ msf a → LT b a)
    (m : List (K × ReportItem))
    (hkeys : m.Pairwise fun p q => p.1 ≠ q.1)
    (hval : ∀ p ∈ m, V p.1) :
    ((m.map toRow).mergeSort fun a b => decide (msf b.date ≤ msf a.date)).Pairwise
      fun r1 r2 => LT r2.date r1.date := by
  have htrans : ∀ a b c : ReportRow K,
      decide (msf b.date ≤ msf a.date) = true →
      decide (msf c.date ≤ msf b.date) = true →
      decide (msf c.date ≤ msf a.date) = true := by
    intro a b c hab hbc
    simp only [decide_eq_true_eq] at *
    exact le_trans hbc hab
  have htotal : ∀ a b : ReportRow K,
      (decide (msf b.date ≤ msf a.date) || decide (msf a.date ≤ msf b.date)) = true := by
    intro a b
    simp only [Bool.or_eq_true, decide_eq_true_eq]
    exact le_total _ _
  have hsorted := List.sorted_mergeSort htrans htotal (m.map toRow)
  have hperm := List.mergeSort_perm (m.map toRow) fun a b => decide (msf b.date ≤ msf a.date)
  have hne : (m.map toRow).Pairwise fun r1 r2 => r1.date ≠ r2.date := by
    rw [List.pairwise_map]
    exact hkeys
  have hsorted_ne : ((m.map toRow).mergeSort
      fun a b => decide (msf b.date ≤ msf a.date)).Pairwise
        fun r1 r2 => r1.date ≠ r2.date :=
    (hperm.pairwise_iff fun h => h.symm).mpr hne
  have hvalid : ∀ r ∈ (m.map toRow).mergeSort
      (fun a b => decide (msf b.date ≤ msf a.date)), V r.date := by
    intro r hr
    obtain ⟨p, hp, rfl⟩ := List.mem_map.mp (hperm.subset hr)
    exact hval p hp
  refine (hsorted.and hsorted_ne).imp_of_mem ?_
  intro a b ha hb hab
  obtain ⟨h1, h2⟩ := hab
  rw [decide_eq_true_eq] at h1
  exact hstrict (hvalid a ha) (hvalid b hb) h2 h1

/-- C8: the per-day invoice counts of the daily report rows sum to the
number of invoices in the input. -/
theorem daily_counts_sum_eq_length (invoices : List Invoice) :
    (((computeDailyAndMonthlyReports invoices).1).map fun r => r.invoiceCount).sum
      = invoices.length := by
  have h1 : (computeDailyAndMonthlyReports invoices).1 =
      (((reportMaps invoices).1).map toRow).mergeSort
        (fun a b => decide (jsUTCms b.date ≤ jsUTCms a.date)) := rfl
  have hperm := List.mergeSort_perm (((reportMaps invoices).1).map toRow)
    fun a b => decide (jsUTCms b.date ≤ jsUTCms a.date)
  rw [h1, (hperm.map fun r => r.invoiceCount).sum_eq, List.map_map]
  have h2 : (reportMaps invoices).1 = foldMap (fun inv => inv.issueDate) invoices [] := by
    unfold reportMaps
    rw [reportMaps_eq_foldMap]
  show sumCounts (reportMaps invoices).1 = invoices.length
  rw [h2, sumCounts_foldMap]
  simp [sumCounts]

/-- C9: with well-formed issue dates, the daily rows are strictly
descending by calendar date and the monthly rows strictly descending by
chronological (year, month) — not merely by string order. -/
theorem reports_sorted_descending (invoices : List Invoice)
    (hv : ∀ inv ∈ invoices, ValidDate inv.issueDate) :
    (((computeDailyAndMonthlyReports invoices).1).Pairwise
        fun r1 r2 => civilLT r2.date r1.date) ∧
    (((computeDailyAndMonthlyReports invoices).2).Pairwise
        fun r1 r2 => monthLT r2.date r1.date) := by
  have hmap1 : (reportMaps invoices).1 = foldMap (fun inv => inv.issueDate) invoices [] := by
    unfold reportMaps; rw [reportMaps_eq_foldMap]
  have hmap2 : (reportMaps invoices).2 = foldMap monthKeyOf invoices [] := by
    unfold reportMaps; rw [reportMaps_eq_foldMap]
  constructor
  · have h1 : (computeDailyAndMonthlyReports invoices).1 =
        (((reportMaps invoices).1).map toRow).mergeSort
          (fun a b => decide (jsUTCms b.date ≤ jsUTCms a.date)) := rfl
    rw [h1]
    refine mergeSort_rows_pairwise jsUTCms ValidDate civilLT
      (fun ha hb hne h => civilLT_of_jsUTCms_le ha hb hne h) _ ?_ ?_
    · rw [hmap1]
      exact pairwise_keys_foldMap _ _ [] (by simp)
    · intro p hp
      rw [hmap1] at hp
      rcases mem_foldMap _ invoices [] p hp with hx | ⟨inv, hinv, heq⟩
      · simp at hx
      · rw [heq]
        exact hv inv hinv
  · have h2 : (computeDailyAndMonthlyReports invoices).2 =
        (((reportMaps invoices).2).map toRow).mergeSort
          (fun a b => decide (jsMonthMs b.date ≤ jsMonthMs a.date)) := rfl
    rw [h2]
    refine mergeSort_rows_pairwise jsMonthMs
      (fun k => ValidDate ⟨k.1, k.2, 1⟩) monthLT
      (fun ha hb hne h => monthLT_of_jsMonthMs_le ha hb hne h) _ ?_ ?_
    · rw [hmap2]
      exact pairwise_keys_foldMap _ _ [] (by simp)
    · intro p hp
      rw [hmap2] at hp
      rcases mem_foldMap _ invoices [] p hp with hx | ⟨inv, hinv, heq⟩
      · simp at hx
      · rw [heq]
        exact validDate_monthKey (hv inv hinv)

/-- Concrete invoice list exercising the aggregation across a year
boundary (December 2024 and January 2025). -/
def demoInvoices : List Invoice :=
  [⟨⟨2024, 12, 31⟩, ⟨"A"⟩, [⟨2, 10⟩]⟩,
   ⟨⟨2025, 1, 2⟩, ⟨"B"⟩, [⟨1, 5⟩]⟩,
   ⟨⟨2024, 12, 31⟩, ⟨"B"⟩, [⟨1, 1⟩]⟩]

/-- Witness for C9 at a concrete invoice set spanning a year boundary. -/
theorem reports_sorted_descending_witness :
    (∀ inv ∈ demoInvoices, ValidDate inv.issueDate) ∧
    ((((computeDailyAndMonthlyReports demoInvoices).1).Pairwise
        fun r1 r2 => civilLT r2.date r1.date) ∧
     (((computeDailyAndMonthlyReports demoInvoices).2).Pairwise
        fun r1 r2 => monthLT r2.date r1.date)) :=
  ⟨by decide, reports_sorted_descending demoInvoices (by decide)⟩

/-! ## Session bootstrap controller (`lib/supabaseClient.ts` / `App.tsx`) -/

/-- Authenticated subject as supabase delivers it (`session.user`):
`email` is optional on the client. -/
structure SupabaseUser where
  id : String
  email : Option String
deriving DecidableEq

/-- Row of the `profiles` table (the app's `User`). The insert passes
`user.email!` through unchecked, so the model keeps the field optional. -/
structure UserRow where
  id : String
  email : Option String
  name : String
  role : String
deriving DecidableEq

/-- State of the remote `profiles` table plus injected failure modes:
`readFault` makes the select fail with an error other than `PGRST116`
(for example a network error), `insertFault` makes the insert fail. -/
structure ProfilesTable where
  rows : String → Option UserRow
  readFault : Bool
  insertFault : Bool

/-- Substring before the first `'@'`, or the whole string when there is
none: the value of `email.split('@')[0]`. -/
def localPart (email : String) : String :=
  String.mk (email.toList.takeWhile fun c => c ≠ '@')

/-- Fallback display name `user.email?.split('@')[0] || 'New User'`:
the JS `||` also replaces an *empty* local part with the default. -/
def fallbackName (user : SupabaseUser) : String :=
  match user.email with
  | some e => if localPart e = "" then "New User" else localPart e
  | none => "New User"

/-- Outcome of `getOrCreateUserProfile`: the resolved profile (or
`none`), the table afterwards, and how many insert calls were issued. -/
def getOrCreateUserProfile (db : ProfilesTable) (user : SupabaseUser) :
    Option UserRow × ProfilesTable × Nat :=
  -- select('*').eq('id', user.id).single(): `readFault` is any error other
  -- than PGRST116; an absent row is the PGRST116 "no rows" error.
  if db.readFault then
    -- error with code !== 'PGRST116': log and return null
    (none, db, 0)
  else
    match db.rows user.id with
    | some profile => (some profile, db, 0)   -- if (profile) return profile
    | none =>
      -- PGRST116: insert the fallback row { id, email, name, role: 'staff' }
      let row : UserRow := ⟨user.id, user.email, fallbackName user, "staff"⟩
      if db.insertFault then
        (none, db, 1)                          -- insertError: return null
      else
        (some row,
         { db with rows := fun k => if k = row.id then some row else db.rows k },
         1)

/-- React state of `App` that the bootstrap touches. -/
structure AppState where
  session : Option SupabaseUser
  currentUser : Option UserRow
  isAuthLoading : Bool
  needsDbSetup : Bool
  loginMessage : Option String
deriving DecidableEq

/-- Initial values of the `useState` hooks. -/
def initialAppState : AppState :=
  { session := none, currentUser := none, isAuthLoading := true,
    needsDbSetup := false, loginMessage := none }

/-- Error object of the schema probe (`select('id').limit(1)`). -/
structure ProbeError where
  code : String
  message : String
deriving DecidableEq

/-- Boolean substring test on character lists, the model of JS
`String.prototype.includes`. -/
def containsSub : List Char → List Char → Bool
  | [], sub => sub.isEmpty
  | c :: rest, sub => sub.isPrefixOf (c :: rest) || containsSub rest sub

/-- JS `msg.includes(sub)`. -/
def jsIncludes (msg sub : String) : Bool :=
  containsSub msg.toList sub.toList

/-- Test of the guard
`dbError.code === '42P01' || dbError.message.includes('does not exist')`. -/
def isMissingTableError (e : ProbeError) : Bool :=
  e.code == "42P01" || jsIncludes e.message "does not exist"

/-- Outcomes of the remote calls available to one bootstrap run. -/
structure Env where
  probeError : Option ProbeError
  session : Option SupabaseUser
  db : ProfilesTable

/-- Remote calls performed during `initializeApp`. -/
structure InitLog where
  getSessionCalled : Bool
  profileReads : Nat
  inserts : Nat
  signOuts : Nat
deriving DecidableEq

/-- Advisory message set when a session exists but no profile could be
loaded or created. -/
def profileLoadFailedMsg : String :=
  "Your user profile could not be loaded or created. Please contact support."

/-- Guard of the early return:
`dbError && (dbError.code === '42P01' || dbError.message.includes('does not exist'))`. -/
def probeSaysMissing (pe : Option ProbeError) : Bool :=
  match pe with
  | some e => isMissingTableError e
  | none => false

/-- Sequential body of `initializeApp` in `App`'s mount effect: schema
probe, then session fetch, then identity resolution with sign-out on
failure, each awaited in order. Returns the state after the run and the
log of remote calls performed. -/
def initializeApp (env : Env) (s : AppState) : AppState × InitLog :=
  if probeSaysMissing env.probeError then
    -- setNeedsDbSetup(true); setIsAuthLoading(false); return
    ({ s with needsDbSetup := true, isAuthLoading := false },
     ⟨false, 0, 0, 0⟩)
  else
    -- const { data: { session } } = await supabase.auth.getSession()
    match env.session with
    | some user =>
      match (getOrCreateUserProfile env.db user).1 with
      | some p =>
        -- setSession(session); setCurrentUser(userProfile)
        ({ s with session := some user, currentUser := some p,
                  isAuthLoading := false },
         ⟨true, 1, (getOrCreateUserProfile env.db user).2.2, 0⟩)
      | none =>
        -- setLoginMessage(...); await signOut(); setSession(null); setCurrentUser(null)
        ({ s with loginMessage := some profileLoadFailedMsg, session := none,
                  currentUser := none, isAuthLoading := false },
         ⟨true, 1, (getOrCreateUserProfile env.db user).2.2, 1⟩)
    | none =>
      -- setSession(null); setCurrentUser(null)
      ({ s with session := none, currentUser := none, isAuthLoading := false },
       ⟨true, 0, 0, 0⟩)

/-- Body of the `onAuthStateChange` callback: `setSession(session)`,
then resolve the profile when a user is present
(`setCurrentUser(userProfile)`, null on failure), else
`setCurrentUser(null)`. The handler performs no sign-out and leaves the
login message untouched. -/
def onAuthStateChange (db : ProfilesTable) (sess : Option SupabaseUser)
    (s : AppState) : AppState × InitLog :=
  match sess with
  | some user =>
    ({ s with session := some user,
              currentUser := (getOrCreateUserProfile db user).1 },
     ⟨false, 1, (getOrCreateUserProfile db user).2.2, 0⟩)
  | none =>
    ({ s with session := none, currentUser := none }, ⟨false, 0, 0, 0⟩)

/-- Screen selected by `App`'s render, in source order: splash while
`isAuthLoading`, then the setup screen, then the login page when session
or profile is missing, else the logged-in application. -/
inductive BootView where
  | initializing
  | needsSetup
  | loggedOut (msg : Option String)
  | loggedIn (u : UserRow)
deriving DecidableEq

/-- View function of `App`'s render on the bootstrap-relevant state. -/
def viewOf (s : AppState) : BootView :=
  if s.isAuthLoading then .initializing
  else if s.needsDbSetup then .needsSetup
  else
    match s.session, s.currentUser with
    | some _, some u => .loggedIn u
    | _, _ => .loggedOut s.loginMessage

/-- One auth-state-change notification: the table contents at that time
and the new session value the provider reports. -/
structure AuthEvent where
  db : ProfilesTable
  session : Option SupabaseUser

/-- Bootstrap execution: the initial `initializeApp` run followed by any
sequence of auth-state-change notifications. -/
def runBootstrap (env : Env) (events : List AuthEvent) : AppState :=
  events.foldl (fun s ev => (onAuthStateChange ev.db ev.session s).1)
    (initializeApp env initialAppState).1


/-- Session and table that fed the run's *last* identity resolution:
those of the last auth-change notification, or of the startup
environment when no notification arrived. -/
def lastAuthSource (env : Env) (events : List AuthEvent) :
    ProfilesTable × Option SupabaseUser :=
  match events.getLast? with
  | some ev => (ev.db, ev.session)
  | none => (env.db, env.session)

theorem viewOf_loggedIn_currentUser {s : AppState} {u : UserRow}
    (h : viewOf s = .loggedIn u) : s.currentUser = some u ∧ s.session.isSome := by
  unfold viewOf at h
  split at h
  · exact absurd h (by simp)
  · split at h
    · exact absurd h (by simp)
    · split at h
      · rename_i val u' hsess hcu
        simp only [BootView.loggedIn.injEq] at h
        constructor
        · rw [← h]
          exact hcu
        · rw [hsess]
          rfl
      · exact absurd h (by simp)

theorem initializeApp_currentUser_some {env : Env} {u : UserRow}
    (h : (initializeApp env initialAppState).1.currentUser = some u) :
    ∃ user, env.session = some user ∧
      (getOrCreateUserProfile env.db user).1 = some u ∧
      (initializeApp env initialAppState).1.session = some user := by
  by_cases hm : probeSaysMissing env.probeError = true
  · exfalso
    have hnone : (initializeApp env initialAppState).1.currentUser = none := by
      unfold initializeApp
      rw [if_pos hm]
      rfl
    rw [hnone] at h
    exact Option.noConfusion h
  · rcases he : env.session with _ | user
    · exfalso
      have hnone : (initializeApp env initialAppState).1.currentUser = none := by
        unfold initializeApp
        rw [if_neg hm, he]
      rw [hnone] at h
      exact Option.noConfusion h
    · rcases hr : (getOrCreateUserProfile env.db user).1 with _ | p
      · exfalso
        have hnone : (initializeApp env initialAppState).1.currentUser = none := by
          unfold initializeApp
          rw [if_neg hm, he]
          dsimp only
          rw [hr]
        rw [hnone] at h
        exact Option.noConfusion h
      · have h1 : (initializeApp env initialAppState).1.currentUser = some p := by
          unfold initializeApp
          rw [if_neg hm, he]
          dsimp only
          rw [hr]
        have h2 : (initializeApp env initialAppState).1.session = some user := by
          unfold initializeApp
          rw [if_neg hm, he]
          dsimp only
          rw [hr]
        rw [h1] at h
        injection h with h
        exact ⟨user, rfl, by rw [hr, h], h2⟩

theorem onAuthStateChange_currentUser_some {db : ProfilesTable}
    {sess : Option SupabaseUser} {s : AppState} {u : UserRow}
    (h : (onAuthStateChange db sess s).1.currentUser = some u) :
    ∃ user, sess = some user ∧ (getOrCreateUserProfile db user).1 = some u ∧
      (onAuthStateChange db sess s).1.session = some user := by
  rcases sess with _ | user
  · exfalso
    have hnone : (onAuthStateChange db none s).1.currentUser = none := rfl
    rw [hnone] at h
    exact Option.noConfusion h
  · refine ⟨user, rfl, ?_, rfl⟩
    exact h

/-- C3: in every bootstrap execution (initial run plus any sequence of
auth-change notifications) the logged-in screen is shown only with a
non-null session, and the displayed profile is exactly the row returned
by the identity resolution the run performed last: resolving the
session user delivered by the last auth input against that input's
table. -/
theorem loggedIn_requires_session_and_identity
    (env : Env) (events : List AuthEvent) (u : UserRow)
    (h : viewOf (runBootstrap env events) = .loggedIn u) :
    ∃ user, (lastAuthSource env events).2 = some user ∧
      (getOrCreateUserProfile (lastAuthSource env events).1 user).1 = some u ∧
      (runBootstrap env events).session = some user := by
  obtain ⟨hcu, -⟩ := viewOf_loggedIn_currentUser h
  rcases events.eq_nil_or_concat with rfl | ⟨evs, ev, rfl⟩
  · obtain ⟨user, hsess, hres, hstate⟩ := initializeApp_currentUser_some hcu
    exact ⟨user, hsess, hres, hstate⟩
  · rw [List.concat_eq_append] at hcu ⊢
    have hrb : runBootstrap env (evs ++ [ev]) =
        (onAuthStateChange ev.db ev.session (runBootstrap env evs)).1 := by
      unfold runBootstrap
      rw [List.foldl_append]
      rfl
    rw [hrb] at hcu
    obtain ⟨user, hsess, hres, hstate⟩ := onAuthStateChange_currentUser_some hcu
    have hlast : lastAuthSource env (evs ++ [ev]) = (ev.db, ev.session) := by
      unfold lastAuthSource
      rw [show (evs ++ [ev]).getLast? = some ev from by simp]
    exact ⟨user, by rw [hlast]; exact hsess, by rw [hlast]; exact hres,
      by rw [hrb]; exact hstate⟩

/-- Profile row used in concrete bootstrap scenarios. -/
def demoRow : UserRow := ⟨"u1", some "ann@example.com", "Ann", "admin"⟩

/-- Table holding exactly `demoRow`, with no injected faults. -/
def demoTable : ProfilesTable :=
  ⟨fun k => if k = "u1" then some demoRow else none, false, false⟩

/-- Witness for C3: a healthy environment actually reaches the
logged-in screen, discharging the theorem's hypothesis concretely. -/
theorem loggedIn_requires_session_and_identity_witness :
    viewOf (runBootstrap ⟨none, some ⟨"u1", some "ann@example.com"⟩, demoTable⟩ [])
        = .loggedIn demoRow ∧
    ∃ user,
      (lastAuthSource ⟨none, some ⟨"u1", some "ann@example.com"⟩, demoTable⟩ []).2
        = some user ∧
      (getOrCreateUserProfile
        (lastAuthSource ⟨none, some ⟨"u1", some "ann@example.com"⟩, demoTable⟩ []).1
        user).1 = some demoRow ∧
      (runBootstrap ⟨none, some ⟨"u1", some "ann@example.com"⟩, demoTable⟩ []).session
        = some user :=
  ⟨by decide,
   loggedIn_requires_session_and_identity
     ⟨none, some ⟨"u1", some "ann@example.com"⟩, demoTable⟩ [] demoRow (by decide)⟩

/-- C4: a missing-table probe error sends the bootstrap to the setup
screen and stops it: the session is never fetched, no profile read or
insert or sign-out happens, and no state field changes other than
`needsDbSetup` and `isAuthLoading`. -/
theorem missingTable_needsSetup (env : Env) (e : ProbeError)
    (h1 : env.probeError = some e) (h2 : isMissingTableError e = true) :
    initializeApp env initialAppState =
      ({ initialAppState with
          needsDbSetup := true, isAuthLoading := false },
       ⟨false, 0, 0, 0⟩) ∧
    viewOf (initializeApp env initialAppState).1 = .needsSetup := by
  have hmiss : probeSaysMissing env.probeError = true := by
    rw [h1]
    exact h2
  have hmain : initializeApp env initialAppState =
      ({ initialAppState with
          needsDbSetup := true, isAuthLoading := false },
       ⟨false, 0, 0, 0⟩) := by
    unfold initializeApp
    rw [hmiss]
    simp
  exact ⟨hmain, by rw [hmain]; rfl⟩

/-- Witness for C4 at a concrete `42P01` probe error, with a live
session in the environment that is provably never consulted. -/
theorem missingTable_needsSetup_witness :
    isMissingTableError ⟨"42P01", "relation does not exist"⟩ = true ∧
    (initializeApp
        ⟨some ⟨"42P01", "relation does not exist"⟩,
         some ⟨"u1", some "ann@example.com"⟩, demoTable⟩ initialAppState =
      ({ initialAppState with
          needsDbSetup := true, isAuthLoading := false },
       ⟨false, 0, 0, 0⟩) ∧
     viewOf (initializeApp
        ⟨some ⟨"42P01", "relation does not exist"⟩,
         some ⟨"u1", some "ann@example.com"⟩, demoTable⟩ initialAppState).1
       = .needsSetup) :=
  ⟨by decide,
   missingTable_needsSetup _ ⟨"42P01", "relation does not exist"⟩ rfl (by decide)⟩

/-- C5: with a session present, a not-found profile read and a failing
insert, the startup run ends on the login screen with the non-null
advisory message and has issued exactly one sign-out. -/
theorem insertFailure_advisory_and_signout (env : Env) (user : SupabaseUser)
    (h1 : env.probeError = none) (h2 : env.session = some user)
    (h3 : env.db.readFault = false) (h4 : env.db.rows user.id = none)
    (h5 : env.db.insertFault = true) :
    initializeApp env initialAppState =
      ({ initialAppState with
          loginMessage := some profileLoadFailedMsg, session := none,
          currentUser := none, isAuthLoading := false },
       ⟨true, 1, 1, 1⟩) ∧
    viewOf (initializeApp env initialAppState).1 =
      .loggedOut (some profileLoadFailedMsg) ∧
    (initializeApp env initialAppState).1.loginMessage ≠ none ∧
    (initializeApp env initialAppState).2.signOuts = 1 := by
  have hres : getOrCreateUserProfile env.db user = (none, env.db, 1) := by
    unfold getOrCreateUserProfile
    rw [h3, h4, h5]
    simp
  have hmain : initializeApp env initialAppState =
      ({ initialAppState with
          loginMessage := some profileLoadFailedMsg, session := none,
          currentUser := none, isAuthLoading := false },
       ⟨true, 1, 1, 1⟩) := by
    unfold initializeApp
    rw [h1, h2]
    simp [probeSaysMissing, hres]
  refine ⟨hmain, ?_, ?_, ?_⟩ <;> rw [hmain] <;> decide

/-- Witness for C5 on an empty table with a forced insert failure. -/
theorem insertFailure_advisory_and_signout_witness :
    initializeApp ⟨none, some ⟨"u2", some "bob@x.com"⟩,
        ⟨fun _ => none, false, true⟩⟩ initialAppState =
      ({ initialAppState with
          loginMessage := some profileLoadFailedMsg, session := none,
          currentUser := none, isAuthLoading := false },
       ⟨true, 1, 1, 1⟩) ∧
    viewOf (initializeApp ⟨none, some ⟨"u2", some "bob@x.com"⟩,
        ⟨fun _ => none, false, true⟩⟩ initialAppState).1 =
      .loggedOut (some profileLoadFailedMsg) ∧
    (initializeApp ⟨none, some ⟨"u2", some "bob@x.com"⟩,
        ⟨fun _ => none, false, true⟩⟩ initialAppState).1.loginMessage ≠ none ∧
    (initializeApp ⟨none, some ⟨"u2", some "bob@x.com"⟩,
        ⟨fun _ => none, false, true⟩⟩ initialAppState).2.signOuts = 1 :=
  insertFailure_advisory_and_signout _ ⟨"u2", some "bob@x.com"⟩ rfl rfl rfl rfl rfl

/-- Profiles table with no rows and no injected faults. -/
def emptyTable : ProfilesTable := ⟨fun _ => none, false, false⟩

/-- Subject whose email has an empty local part (everything after the
`'@'` only). -/
def userAtSign : SupabaseUser := ⟨"u3", some "@example.com"⟩

/-- Counterexample to C6 as stated: for the subject `userAtSign` the
read fails with the no-matching-row case and exactly one insert is
performed, the email is present, yet the returned row's display name is
the fixed default string rather than the (empty) local part of the
email, because the JS `||` also discards an empty-string local part. -/
theorem fallback_name_counterexample :
    emptyTable.readFault = false ∧
    emptyTable.rows userAtSign.id = none ∧
    userAtSign.email = some "@example.com" ∧
    localPart "@example.com" = "" ∧
    (getOrCreateUserProfile emptyTable userAtSign).1 =
      some ⟨"u3", some "@example.com", "New User", "staff"⟩ ∧
    ¬ (∀ row, (getOrCreateUserProfile emptyTable userAtSign).1 = some row →
        (∃ e, userAtSign.email = some e ∧ row.name = localPart e) ∨
        (userAtSign.email = none ∧ row.name = "New User")) := by
  refine ⟨rfl, rfl, rfl, by decide, by decide, ?_⟩
  intro h
  rcases h ⟨"u3", some "@example.com", "New User", "staff"⟩ (by decide) with
    ⟨e, he, hname⟩ | ⟨he, -⟩
  · have he' : "@example.com" = e := by
      simpa [userAtSign] using he
    rw [← he'] at hname
    exact absurd hname (by decide)
  · exact absurd he (by simp [userAtSign])

/-- C6 (amended): when the profile read fails with no matching row, the
fallback path issues exactly one insert, and any returned row has role
`staff` (never `admin`) and a display name equal to the email's
non-empty local part, the fixed default string being used when the email
is absent or its local part is empty. -/
theorem fallback_insert_staff (db : ProfilesTable) (user : SupabaseUser)
    (h1 : db.readFault = false) (h2 : db.rows user.id = none) :
    (getOrCreateUserProfile db user).2.2 = 1 ∧
    ∀ row, (getOrCreateUserProfile db user).1 = some row →
      row.role = "staff" ∧ row.role ≠ "admin" ∧
      ((∃ e, user.email = some e ∧ localPart e ≠ "" ∧ row.name = localPart e) ∨
       ((user.email = none ∨ ∃ e, user.email = some e ∧ localPart e = "") ∧
        row.name = "New User")) := by
  rcases hins : db.insertFault with _ | _
  · have hval : getOrCreateUserProfile db user =
        (some ⟨user.id, user.email, fallbackName user, "staff"⟩,
         { db with rows := fun k =>
            if k = user.id then some ⟨user.id, user.email, fallbackName user, "staff"⟩
            else db.rows k },
         1) := by
      unfold getOrCreateUserProfile
      rw [h1, h2, hins]
      simp
    rw [hval]
    refine ⟨rfl, ?_⟩
    intro row hrow
    have hrow' : row = ⟨user.id, user.email, fallbackName user, "staff"⟩ := by
      injection hrow with hx
      exact hx.symm
    subst hrow'
    refine ⟨rfl, show ("staff" : String) ≠ "admin" by decide, ?_⟩
    show (∃ e, user.email = some e ∧ localPart e ≠ "" ∧ fallbackName user = localPart e) ∨
      ((user.email = none ∨ ∃ e, user.email = some e ∧ localPart e = "") ∧
        fallbackName user = "New User")
    rcases he : user.email with _ | e
    · refine Or.inr ⟨Or.inl rfl, ?_⟩
      unfold fallbackName
      rw [he]
    · by_cases hlp : localPart e = ""
      · refine Or.inr ⟨Or.inr ⟨e, rfl, hlp⟩, ?_⟩
        unfold fallbackName
        rw [he]
        dsimp only
        rw [if_pos hlp]
      · refine Or.inl ⟨e, rfl, hlp, ?_⟩
        unfold fallbackName
        rw [he]
        dsimp only
        rw [if_neg hlp]
  · have hval : getOrCreateUserProfile db user = (none, db, 1) := by
      unfold getOrCreateUserProfile
      rw [h1, h2, hins]
      simp
    rw [hval]
    refine ⟨rfl, ?_⟩
    intro row hrow
    exact absurd hrow (by simp)

/-- Witness for the amended C6 on an empty table with an ordinary email. -/
theorem fallback_insert_staff_witness :
    emptyTable.readFault = false ∧
    emptyTable.rows "u4" = none ∧
    ((getOrCreateUserProfile emptyTable ⟨"u4", some "carol@x.com"⟩).2.2 = 1 ∧
     ∀ row, (getOrCreateUserProfile emptyTable ⟨"u4", some "carol@x.com"⟩).1 = some row →
       row.role = "staff" ∧ row.role ≠ "admin" ∧
       ((∃ e, (⟨"u4", some "carol@x.com"⟩ : SupabaseUser).email = some e ∧
          localPart e ≠ "" ∧ row.name = localPart e) ∨
        (((⟨"u4", some "carol@x.com"⟩ : SupabaseUser).email = none ∨
          ∃ e, (⟨"u4", some "carol@x.com"⟩ : SupabaseUser).email = some e ∧
            localPart e = "") ∧
         row.name = "New User"))) :=
  ⟨rfl, rfl, fallback_insert_staff emptyTable ⟨"u4", some "carol@x.com"⟩ rfl rfl⟩

/-- C7: resolving an existing profile returns the stored row with no
insert and leaves the table unchanged, so a second call returns the very
same row, again with no insert. -/
theorem resolveIdentity_idempotent (db : ProfilesTable) (user : SupabaseUser)
    (r : UserRow) (h1 : db.readFault = false) (h2 : db.rows user.id = some r) :
    getOrCreateUserProfile db user = (some r, db, 0) ∧
    getOrCreateUserProfile (getOrCreateUserProfile db user).2.1 user
      = (some r, db, 0) := by
  have hfirst : getOrCreateUserProfile db user = (some r, db, 0) := by
    unfold getOrCreateUserProfile
    rw [h1, h2]
    simp
  exact ⟨hfirst, by rw [hfirst, hfirst]⟩

/-- Witness for C7 on the concrete one-row table. -/
theorem resolveIdentity_idempotent_witness :
    demoTable.readFault = false ∧
    demoTable.rows "u1" = some demoRow ∧
    (getOrCreateUserProfile demoTable ⟨"u1", some "ann@example.com"⟩
        = (some demoRow, demoTable, 0) ∧
     getOrCreateUserProfile
        (getOrCreateUserProfile demoTable ⟨"u1", some "ann@example.com"⟩).2.1
        ⟨"u1", some "ann@example.com"⟩ = (some demoRow, demoTable, 0)) :=
  ⟨rfl, rfl,
   resolveIdentity_idempotent demoTable ⟨"u1", some "ann@example.com"⟩ demoRow rfl rfl⟩

/-- C10: when an auth-change notification carries a session but identity
resolution fails, the handler stores the session, clears the current
user, performs no sign-out and leaves the login message untouched. -/
theorem authChange_failure_no_signout (db : ProfilesTable) (user : SupabaseUser)
    (s : AppState) (h : (getOrCreateUserProfile db user).1 = none) :
    onAuthStateChange db (some user) s =
      ({ s with session := some user, currentUser := none },
       ⟨false, 1, (getOrCreateUserProfile db user).2.2, 0⟩) ∧
    (onAuthStateChange db (some user) s).2.signOuts = 0 ∧
    (onAuthStateChange db (some user) s).1.loginMessage = s.loginMessage ∧
    (onAuthStateChange db (some user) s).1.isAuthLoading = s.isAuthLoading := by
  have hmain : onAuthStateChange db (some user) s =
      ({ s with session := some user, currentUser := none },
       ⟨false, 1, (getOrCreateUserProfile db user).2.2, 0⟩) := by
    unfold onAuthStateChange
    dsimp only
    rw [h]
  exact ⟨hmain, by rw [hmain], by rw [hmain], by rw [hmain]⟩

/-- Table whose reads fail with a non-`PGRST116` error, so resolution
fails without reaching the insert. -/
def faultyTable : ProfilesTable := ⟨fun _ => none, true, false⟩

/-- Witness for C10 on a read-faulted table. -/
theorem authChange_failure_no_signout_witness :
    (getOrCreateUserProfile faultyTable ⟨"u5", none⟩).1 = none ∧
    (onAuthStateChange faultyTable (some ⟨"u5", none⟩) initialAppState =
      ({ initialAppState with session := some ⟨"u5", none⟩, currentUser := none },
       ⟨false, 1, (getOrCreateUserProfile faultyTable ⟨"u5", none⟩).2.2, 0⟩) ∧
     (onAuthStateChange faultyTable (some ⟨"u5", none⟩) initialAppState).2.signOuts = 0 ∧
     (onAuthStateChange faultyTable (some ⟨"u5", none⟩) initialAppState).1.loginMessage
        = initialAppState.loginMessage ∧
     (onAuthStateChange faultyTable (some ⟨"u5", none⟩) initialAppState).1.isAuthLoading
        = initialAppState.isAuthLoading) :=
  ⟨rfl, authChange_failure_no_signout faultyTable ⟨"u5", none⟩ initialAppState rfl⟩

/-! ## Startup ordering (the mount effect of `App`) and customer stats -/

/-- Observable events of the mount effect, in the order the JS event
loop produces them. -/
inductive BootEvent where
  | probeIssued
  | subscriptionInstalled
  | probeResolved
  | sessionFetchIssued
  | sessionFetchResolved
  | profileReadResolved
  | profileInsertResolved
  | signOutResolved
deriving DecidableEq

/-- Awaited-call resolutions of step 4 (identity resolution): the
profile read, then the insert when the fallback path runs, then the
sign-out when resolution fails. -/
def resolutionEvents (db : ProfilesTable) (user : SupabaseUser) : List BootEvent :=
  [.profileReadResolved] ++
  (if (getOrCreateUserProfile db user).2.2 = 1 then [.profileInsertResolved] else []) ++
  (if (getOrCreateUserProfile db user).1 = none then [.signOutResolved] else [])

/-- Event trace of the mount effect. The effect body calls the async
`initializeApp()` *without awaiting it* and then calls
`supabase.auth.onAuthStateChange(...)` in the same synchronous job. By
JS run-to-completion semantics, `initializeApp` runs synchronously only
up to its first `await` (issuing the probe request); the subscription is
therefore installed before any awaited promise of `initializeApp`
resolves, and the probe, session fetch and identity resolution resolve
afterwards, in their sequential order inside `initializeApp`. -/
def effectTrace (env : Env) : List BootEvent :=
  [.probeIssued, .subscriptionInstalled, .probeResolved] ++
  (if probeSaysMissing env.probeError then [] else
    [.sessionFetchIssued, .sessionFetchResolved] ++
    (match env.session with
     | some user => resolutionEvents env.db user
     | none => []))

/-- Counterexample to C1 as stated: in the run with a healthy schema and
no session, the session fetch resolves and the subscription is
installed, but the subscription is *not* installed after the session
fetch resolves — it is installed before it. -/
theorem subscription_installed_early_counterexample :
    BootEvent.sessionFetchResolved ∈ effectTrace ⟨none, none, emptyTable⟩ ∧
    BootEvent.subscriptionInstalled ∈ effectTrace ⟨none, none, emptyTable⟩ ∧
    ¬ (effectTrace ⟨none, none, emptyTable⟩).indexOf BootEvent.sessionFetchResolved
        < (effectTrace ⟨none, none, emptyTable⟩).indexOf BootEvent.subscriptionInstalled := by
  decide

/-- C1 (amended): in every execution the schema probe resolves before
the session fetch resolves (steps 1-4 stay ordered among themselves),
but the auth-state-change subscription is installed synchronously before
the probe resolves, hence before steps 1-4 complete. -/
theorem subscription_and_probe_ordering (env : Env) :
    (effectTrace env).indexOf BootEvent.subscriptionInstalled
      < (effectTrace env).indexOf BootEvent.probeResolved ∧
    (BootEvent.sessionFetchResolved ∈ effectTrace env →
      (effectTrace env).indexOf BootEvent.probeResolved
        < (effectTrace env).indexOf BootEvent.sessionFetchResolved) := by
  constructor
  · have h1 : (effectTrace env).indexOf BootEvent.subscriptionInstalled = 1 := rfl
    have h2 : (effectTrace env).indexOf BootEvent.probeResolved = 2 := rfl
    rw [h1, h2]
    omega
  · intro hmem
    by_cases hm : probeSaysMissing env.probeError = true
    · exfalso
      have htr : effectTrace env = [.probeIssued, .subscriptionInstalled, .probeResolved] := by
        unfold effectTrace
        rw [if_pos hm]
        rfl
      rw [htr] at hmem
      exact absurd hmem (by decide)
    · have htr : effectTrace env =
          BootEvent.probeIssued :: BootEvent.subscriptionInstalled ::
            BootEvent.probeResolved :: BootEvent.sessionFetchIssued ::
            BootEvent.sessionFetchResolved ::
            (match env.session with
             | some user => resolutionEvents env.db user
             | none => []) := by
        unfold effectTrace
        rw [if_neg hm]
        rfl
      rw [htr]
      have h2 : List.indexOf BootEvent.probeResolved
          (BootEvent.probeIssued :: BootEvent.subscriptionInstalled ::
            BootEvent.probeResolved :: BootEvent.sessionFetchIssued ::
            BootEvent.sessionFetchResolved ::
            (match env.session with
             | some user => resolutionEvents env.db user
             | none => [])) = 2 := rfl
      have h4 : List.indexOf BootEvent.sessionFetchResolved
          (BootEvent.probeIssued :: BootEvent.subscriptionInstalled ::
            BootEvent.probeResolved :: BootEvent.sessionFetchIssued ::
            BootEvent.sessionFetchResolved ::
            (match env.session with
             | some user => resolutionEvents env.db user
             | none => [])) = 4 := rfl
      rw [h2, h4]
      omega

/-- Witness for the amended C1 on a run whose trace contains the session
fetch. -/
theorem subscription_and_probe_ordering_witness :
    BootEvent.sessionFetchResolved ∈ effectTrace ⟨none, none, emptyTable⟩ ∧
    (effectTrace ⟨none, none, emptyTable⟩).indexOf BootEvent.subscriptionInstalled
      < (effectTrace ⟨none, none, emptyTable⟩).indexOf BootEvent.probeResolved ∧
    (effectTrace ⟨none, none, emptyTable⟩).indexOf BootEvent.probeResolved
      < (effectTrace ⟨none, none, emptyTable⟩).indexOf BootEvent.sessionFetchResolved :=
  ⟨by decide,
   (subscription_and_probe_ordering ⟨none, none, emptyTable⟩).1,
   (subscription_and_probe_ordering ⟨none, none, emptyTable⟩).2 (by decide)⟩

/-- Unique-customer counters of `CustomerStatsDashboard`. -/
structure CustomerStats where
  today : Nat
  thisMonth : Nat
  thisYear : Nat
deriving DecidableEq

/-- Body of one iteration of the dashboard's `invoices.forEach`:
`issueDate = new Date(invoice.issueDate)` (UTC parse of the date-only
string, modelled by `jsUTCms`), the daily set keyed by string equality
with `todayStr`, the monthly and yearly sets by the *local* getters of
the UTC-parsed instant. -/
def customerStatsStep (todayStr : CivilDate) (currentMonth : Nat)
    (currentYear : Int) (tzMs : Int)
    (acc : List String × List String × List String) (inv : Invoice) :
    List String × List String × List String :=
  (if inv.issueDate = todayStr then setAdd acc.1 inv.billTo.name else acc.1,
   if jsGetFullYear (jsUTCms inv.issueDate) tzMs = currentYear ∧
       jsGetMonth (jsUTCms inv.issueDate) tzMs = currentMonth
     then setAdd acc.2.1 inv.billTo.name else acc.2.1,
   if jsGetFullYear (jsUTCms inv.issueDate) tzMs = currentYear
     then setAdd acc.2.2 inv.billTo.name else acc.2.2)

/-- Customer-count computation of `CustomerStatsDashboard`, for a viewer
whose clock reads `nowMs` (ms since the epoch) at UTC offset `tzMs`:
`todayStr = now.toISOString().split('T')[0]` is the UTC calendar day of
`now`, while `currentMonth`/`currentYear` come from the local getters of
`now`; each invoice's sets membership is decided as in
`customerStatsStep`. -/
def computeCustomerCounts (invoices : List Invoice) (nowMs tzMs : Int) :
    CustomerStats :=
  let acc := invoices.foldl
    (customerStatsStep (jsISODateOfMs nowMs) (jsGetMonth nowMs tzMs)
      (jsGetFullYear nowMs tzMs) tzMs)
    ([], [], [])
  ⟨acc.1.length, acc.2.1.length, acc.2.2.length⟩

/-- Invoice issued on New Year's Day 2025, used to exhibit the
timezone dependence of the customer counters. -/
def c2Invoice : Invoice := ⟨⟨2025, 1, 1⟩, ⟨"A"⟩, []⟩

/-- Reference instant 2025-01-15T12:00:00Z. -/
def c2Now : Int := jsUTCms ⟨2025, 1, 15⟩ + 43200000

/-- C2 is violated by the code: the invoice issued `"2025-01-01"` is
counted in the reference instant's month and year for a viewer at UTC,
but in neither for a viewer at UTC-5 (`tzMs = -18000000`), because
`new Date("YYYY-MM-DD")` parses as UTC midnight and the local getters
then report 2024-12-31 in negative-offset zones. -/
theorem customerCounts_timezone_dependent :
    (computeCustomerCounts [c2Invoice] c2Now 0).thisMonth = 1 ∧
    (computeCustomerCounts [c2Invoice] c2Now 0).thisYear = 1 ∧
    (computeCustomerCounts [c2Invoice] c2Now (-18000000)).thisMonth = 0 ∧
    (computeCustomerCounts [c2Invoice] c2Now (-18000000)).thisYear = 0 := by
  decide
